import Mathlib

/-!
Verification development for the yasha playback/packet-dispatch engine.

The definitions below are a shallow embedding of the relevant parts of
src/src/TrackPlayer.ts and src/src/VoiceConnection.ts.  JavaScript
numbers holding integer values (sequence, timestamp, nonce, millisecond
clocks) are modelled as Int (they stay far below 2^53, so double
arithmetic is exact); byte values are modelled as Nat lists.
-/

namespace Yasha

/-! ## Encryption counter state (TrackPlayer.ts, send, lines 425-521)

The per-connection mutable counters read and written by the send path:
connectionData.sequence, connectionData.timestamp, connectionData.nonce. -/

structure ConnectionData where
  sequence : Int
  timestamp : Int
  nonce : Int
deriving Repr, DecidableEq

/-- Counter update performed by send before writing the packet header
(TrackPlayer.ts lines 477-482):
sequence++; timestamp += frameSize;
if (sequence > 65535) sequence = 0; if (timestamp > 4294967295) timestamp = 0. -/
def send_update_counters (cd : ConnectionData) (frameSize : Int) : ConnectionData :=
  let seq := cd.sequence + 1
  let ts := cd.timestamp + frameSize
  { cd with
    sequence := if seq > 65535 then 0 else seq
    timestamp := if ts > 4294967295 then 0 else ts }

/-- Iterated sends with a fixed frame size: the counter state after n calls to send. -/
def send_iter (frameSize : Int) (n : Nat) (cd : ConnectionData) : ConnectionData :=
  (fun c => send_update_counters c frameSize)^[n] cd

/-- Big-endian byte encoding written by Buffer.writeUInt32BE(v, 0). -/
def writeUInt32BE (v : Int) : List Int :=
  [(v / 2 ^ 24) % 256, (v / 2 ^ 16) % 256, (v / 2 ^ 8) % 256, v % 256]

/-- Result of the LITE branch of the send encryption switch: the stored
post-increment nonce counter, the 24-byte CONNECTION_NONCE buffer passed to
sodium.crypto_secretbox_easy, and the bytes appended after the ciphertext. -/
structure LiteSendResult where
  nonce : Int
  nonceBuffer : List Int
  suffix : List Int
deriving Repr, DecidableEq

/-- The LITE branch of send (TrackPlayer.ts lines 494-501):
nonce = (nonce ?? 0) + 1; if (nonce > 4294967295) nonce = 0;
CONNECTION_NONCE.writeUInt32BE(nonce, 0); encrypt with CONNECTION_NONCE;
append CONNECTION_NONCE.subarray(0, 4).  CONNECTION_NONCE is a 24-byte
zero-initialised buffer of which only the first 4 bytes are ever written. -/
def lite_send (oldNonce : Int) : LiteSendResult :=
  let n0 := oldNonce + 1
  let n := if n0 > 4294967295 then 0 else n0
  let buf := writeUInt32BE n ++ List.replicate 20 0
  { nonce := n, nonceBuffer := buf, suffix := buf.take 4 }

/-! ## Retry policy and the onerror handler (TrackPlayer.ts lines 183-193, 597-612)

The state carries the fields touched by error and onerror.  The ghost
fields fatal_events and recreated count emitted fatal error events and
record whether create_player ran; destroy_player success and the
asynchronous start() restart are taken as succeeding. -/

def ERROR_INTERVAL : Int := 5 * 60 * 1000

structure PlaybackState where
  last_error : Int
  player : Bool
  has_track : Bool
  streams_cached : Bool
  fatal_events : Nat
  recreated : Bool
deriving Repr, DecidableEq

/-- The error method (TrackPlayer.ts lines 597-612): fatal when retryable is
exactly false or less than ERROR_INTERVAL ms elapsed since last_error; a fatal
error destroys the player and emits one InternalError event; otherwise the
current time is recorded in last_error and false is returned. -/
def error_fn (now : Int) (retryable : Option Bool) (st : PlaybackState) : Bool × PlaybackState :=
  if retryable = some false ∨ now - st.last_error < ERROR_INTERVAL then
    (true, { st with player := false, fatal_events := st.fatal_events + 1 })
  else
    (false, { st with last_error := now })

/-- The onerror handler (TrackPlayer.ts lines 183-193): if error() returns true
it stops; otherwise it clears track.streams (when a track is set), recreates the
decode engine via create_player(seekTime) and restarts. -/
def onerror (now : Int) (retryable : Option Bool) (st : PlaybackState) : PlaybackState :=
  let r := error_fn now retryable st
  if r.1 then r.2
  else
    let st1 := if r.2.has_track then { r.2 with streams_cached := false } else r.2
    { st1 with player := true, recreated := true }

/-! ## Subscription (TrackPlayer.ts, subscribe, lines 130-145)

Sessions are identified by Nat ids; statechange_listeners records the sessions
to which the onstatechange listener was attached. -/

def unsupported_subscribe_message : String :=
  "Cannot subscribe to multiple connections when external encryption is enabled"

structure SubscribeState where
  external_encrypt : Bool
  subscriptions : List Nat
  statechange_listeners : List Nat
deriving Repr, DecidableEq

/-- The subscribe method: under external_encrypt a second subscription throws
UnsupportedError before the listener is attached and before the push; otherwise
the listener is attached (external_encrypt only) and the subscription pushed.
The returned pair is the post-call state and the thrown error message, if any. -/
def subscribe (st : SubscribeState) (session : Nat) : SubscribeState × Option String :=
  if st.external_encrypt then
    if st.subscriptions.length ≠ 0 then
      (st, some unsupported_subscribe_message)
    else
      let st1 := { st with statechange_listeners := st.statechange_listeners ++ [session] }
      ({ st1 with subscriptions := st1.subscriptions ++ [session] }, none)
  else
    ({ st with subscriptions := st.subscriptions ++ [session] }, none)

/-! ## Stream selection (TrackPlayer.ts, get_best_stream_one lines 614-640,
get_best_stream lines 643-663)

The stream fields consulted by the selector.  bitrate is number or undefined
(Option Int); codecs is the codec-name string; volume is the array-level
normalization hint copied onto the selected stream. -/

structure TrackStream where
  video : Bool
  audio : Bool
  codecs : Option String
  bitrate : Option Int
  default_audio_track : Bool
  volume : Option Int
deriving Repr, DecidableEq

/-- The comparator key used by the sort callback: b.bitrate ?? 0. -/
def jsbitrate (s : TrackStream) : Int := s.bitrate.getD 0

/-- The classification loop of get_best_stream_one (lines 621-632): each stream
goes to the video bucket if stream.video, else to the opus bucket if
stream.codecs is the string opus, else to the generic audio bucket, preserving
original order. -/
def classify : List TrackStream → List TrackStream × List TrackStream × List TrackStream
  | [] => ([], [], [])
  | s :: rest =>
    let p := classify rest
    if s.video then (p.1, p.2.1, s :: p.2.2)
    else if s.codecs = some "opus" then (s :: p.1, p.2.1, p.2.2)
    else (p.1, s :: p.2.1, p.2.2)

/-- Stable insertion used to model the ES2019-stable
candidates.sort((a, b) => (b.bitrate ?? 0) - (a.bitrate ?? 0)): an element moves
ahead of exactly those earlier elements with strictly smaller key. -/
def insertDesc (x : TrackStream) : List TrackStream → List TrackStream
  | [] => [x]
  | y :: ys => if jsbitrate x ≤ jsbitrate y then y :: insertDesc x ys else x :: y :: ys

/-- Stable descending-by-bitrate sort: elements are inserted left to right, so
on equal keys the earlier element stays first. -/
def sortDesc (l : List TrackStream) : List TrackStream :=
  l.foldl (fun acc x => insertDesc x acc) []

/-- The get_best_stream_one method: returns null on an empty list, otherwise
partitions into opus / audio / video buckets, takes the first non-empty bucket
in that order, sorts it descending by bitrate and returns its first element. -/
def get_best_stream_one (streams : List TrackStream) : Option TrackStream :=
  if streams.isEmpty then none
  else
    let p := classify streams
    let candidates := if ¬p.1.isEmpty then p.1 else if ¬p.2.1.isEmpty then p.2.1 else p.2.2
    if candidates.isEmpty then none
    else (sortDesc candidates).head?

/-- The bucket actually used by get_best_stream_one: the first non-empty of
opus, audio, video in that priority order. -/
def winning_partition (streams : List TrackStream) : List TrackStream :=
  let p := classify streams
  if ¬p.1.isEmpty then p.1 else if ¬p.2.1.isEmpty then p.2.1 else p.2.2

/-- Running best of the spec's selection rule: keep the current best and
replace it only on a strictly larger bitrate key, so ties go to the earlier
element. -/
def step_best (h : Option TrackStream) (x : TrackStream) : Option TrackStream :=
  match h with
  | none => some x
  | some y => if jsbitrate y < jsbitrate x then some x else some y

/-- Specification-side selection rule: the first maximum-bitrate element of a
list (undefined bitrate taken as 0, ties broken by original order).  Stated
independently of the sort so the sort-based selection can be compared to it. -/
def firstMax (l : List TrackStream) : Option TrackStream :=
  l.foldl step_best none

/-- The get_best_stream method: filter to audio-capable streams, prefer those
flagged default_audio_track, fall back to all audio-capable streams, and copy
the array-level volume hint onto the result. -/
def get_best_stream (streams : List TrackStream) (volume : Option Int) :
    Option TrackStream :=
  let audioStreams := streams.filter (fun s => s.audio)
  let r0 := get_best_stream_one (audioStreams.filter (fun s => s.default_audio_track))
  let result := match r0 with
    | some r => some r
    | none => get_best_stream_one audioStreams
  match result, volume with
  | some r, some v => some { r with volume := some v }
  | _, _ => result

/-! ## Keepalive scheduler (TrackPlayer.ts, start_silence_frames lines 523-583,
stop_silence_frames lines 585-595)

State of the silence-frame machinery together with two ghost fields: sends
counts calls to send(SILENCE, 960, true) and time is the millisecond clock
advanced by the 20 ms interval.  The external-encryption counter-sync branches
(lines 528-546 and 554-573) are skipped, matching a player with
external_encrypt disabled. -/

structure SilenceState where
  needed : Bool
  left : Int
  interval : Bool
  sends : Nat
  time : Int
deriving Repr, DecidableEq

/-- The stop_silence_frames method: a no-op when silence frames are already
needed; otherwise clears any running interval, sets silence_frames_needed and
resets silence_frames_left to 5. -/
def stop_silence_frames (s : SilenceState) : SilenceState :=
  if s.needed then s
  else { s with interval := false, needed := true, left := 5 }

/-- The start_silence_frames method: returns unless silence frames are needed
and no interval is running; otherwise clears the needed flag and arms the 20 ms
interval. -/
def start_silence_frames (s : SilenceState) : SilenceState :=
  if ¬s.needed ∨ s.interval then s
  else { s with needed := false, interval := true }

/-- One firing of the 20 ms interval callback (lines 548-582): when the
interval is armed, 20 ms pass, silence_frames_left is decremented, one silence
frame is sent, and when the counter reaches exactly zero the interval clears
itself.  A cleared timer never fires, so the tick is the identity then. -/
def silence_tick (s : SilenceState) : SilenceState :=
  if s.interval = false then s
  else
    let s1 := { s with time := s.time + 20, left := s.left - 1, sends := s.sends + 1 }
    if s1.left = 0 then { s1 with interval := false } else s1

/-! ## Connection readiness (VoiceConnection.ts, await_connection lines 133-158,
handle_state_change lines 75-94, set state lines 96-103)

The promise/timeout machinery of await_connection: promise holds the in-flight
future (none when no future exists), timeoutAt the absolute deadline of the
armed 15000 ms timeout.  The settlement continuation of await_connection (the
try/finally clearing the fields after the promise settles) and the
promise-absent reconnection branch of the state setter are outside the runs
considered here, which keep one future in flight. -/

inductive VStatus
  | Signalling
  | Connecting
  | Ready
  | Disconnected
  | Destroyed
deriving Repr, DecidableEq

inductive DisconnectReason
  | AdapterUnavailable
  | EndpointRemoved
  | WebSocketClose
  | Manual
deriving Repr, DecidableEq

inductive PromiseState
  | pending
  | resolved
  | rejected (msg : String)
deriving Repr, DecidableEq

structure ConnState where
  status : VStatus
  promise : Option PromiseState
  timeoutAt : Option Int
deriving Repr, DecidableEq

/-- Rejection of the in-flight promise: only a pending promise settles. -/
def promise_reject (msg : String) (s : ConnState) : ConnState :=
  match s.promise with
  | some PromiseState.pending => { s with promise := some (PromiseState.rejected msg) }
  | _ => s

/-- Resolution of the in-flight promise: only a pending promise settles. -/
def promise_resolve (s : ConnState) : ConnState :=
  match s.promise with
  | some PromiseState.pending => { s with promise := some PromiseState.resolved }
  | _ => s

/-- The static disconnect_reason table (VoiceConnection.ts lines 51-62). -/
def disconnect_reason : DisconnectReason → String
  | DisconnectReason.AdapterUnavailable => "Adapter unavailable"
  | DisconnectReason.EndpointRemoved => "Endpoint removed"
  | DisconnectReason.WebSocketClose => "WebSocket closed"
  | DisconnectReason.Manual => "Manual disconnect"

/-- The handle_state_change method: Destroyed rejects with the destroy message,
Disconnected rejects with the mapped disconnect reason, Ready resolves; other
statuses fall through the switch. -/
def handle_state_change (newStatus : VStatus) (reason : Option DisconnectReason)
    (s : ConnState) : ConnState :=
  match newStatus with
  | VStatus.Destroyed => promise_reject "Connection destroyed" s
  | VStatus.Disconnected =>
    promise_reject (match reason with
      | some r => disconnect_reason r
      | none => "undefined") s
  | VStatus.Ready => promise_resolve s
  | _ => s

/-- The state setter (lines 96-103) restricted to runs with a promise in
flight: on a genuine status change with a promise present, handle_state_change
runs first, then the stored status is updated. -/
def set_state (newStatus : VStatus) (reason : Option DisconnectReason)
    (s : ConnState) : ConnState :=
  if newStatus ≠ s.status ∧ s.promise.isSome then
    { handle_state_change newStatus reason s with status := newStatus }
  else
    { s with status := newStatus }

/-- The await_connection method entry (lines 133-143): an existing Ready status
or an in-flight promise returns immediately with no new future; otherwise a
pending promise is created and the 15000 ms timeout armed. -/
def await_connection (now : Int) (s : ConnState) : ConnState :=
  if s.status = VStatus.Ready ∨ s.promise.isSome then s
  else { s with promise := some PromiseState.pending, timeoutAt := some (now + 15000) }

/-- The setTimeout callback (lines 140-143): clears the stored timeout handle
and rejects the promise with the timed-out error. -/
def timeout_fire (s : ConnState) : ConnState :=
  promise_reject "Connection timed out" { s with timeoutAt := none }

inductive ConnEvent
  | statusChange (st : VStatus) (reason : Option DisconnectReason)
  | fire
deriving Repr, DecidableEq

/-- One scheduler event hitting the connection. -/
def conn_step (s : ConnState) (e : ConnEvent) : ConnState :=
  match e with
  | ConnEvent.statusChange st r => set_state st r s
  | ConnEvent.fire => timeout_fire s

/-- A run of scheduler events. -/
def conn_run (s : ConnState) (tr : List ConnEvent) : ConnState :=
  tr.foldl conn_step s

/-! ## Concrete streams used by the spec's examples -/

/-- A video-flagged, non-audio stream of bitrate 720. -/
def videoOnly720 : TrackStream :=
  { video := true, audio := false, codecs := none, bitrate := some 720,
    default_audio_track := false, volume := none }

/-- A stream flagged both video and audio, bitrate 720. -/
def videoAudio720 : TrackStream :=
  { video := true, audio := true, codecs := none, bitrate := some 720,
    default_audio_track := false, volume := none }

/-- The opus-coded audio stream of bitrate 96 from the spec's example. -/
def opus96 : TrackStream :=
  { video := false, audio := true, codecs := some "opus", bitrate := some 96,
    default_audio_track := false, volume := none }

/-- The aac-coded audio stream of bitrate 128 from the spec's example. -/
def aac128 : TrackStream :=
  { video := false, audio := true, codecs := some "aac", bitrate := some 128,
    default_audio_track := false, volume := none }

/-! ## Counter theorems -/

theorem send_update_sequence (cd : ConnectionData) (fs : Int) :
    (send_update_counters cd fs).sequence =
      if cd.sequence + 1 > 65535 then 0 else cd.sequence + 1 := rfl

theorem send_update_timestamp (cd : ConnectionData) (fs : Int) :
    (send_update_counters cd fs).timestamp =
      if cd.timestamp + fs > 4294967295 then 0 else cd.timestamp + fs := rfl

/-- C1 counterexample: at timestamp 4294967295 a send of frame size 2 stores 0,
while addition modulo 2 to the power 32 would give 1: the update is not a
reduction modulo 2 to the power 32. -/
theorem timestamp_not_mod_counterexample :
    (send_update_counters ⟨0, 4294967295, 0⟩ 2).timestamp = 0 ∧
    ((4294967295 : Int) + 2) % 2 ^ 32 = 1 := by
  constructor
  · rfl
  · norm_num

/-- C1 (amended): the timestamp is set to old + frameSize, but reset to exactly
0 whenever that sum exceeds 4294967295; this agrees with reduction modulo 2 to
the power 32 when frameSize = 1 (and in particular 4294967295 wraps to 0 under
any frameSize of at least 1), and the stored value always stays within
0..4294967295. -/
theorem timestamp_update_spec (cd : ConnectionData) (fs : Int)
    (h0 : 0 ≤ cd.timestamp) (h1 : cd.timestamp ≤ 4294967295) (hfs : 1 ≤ fs) :
    (cd.timestamp + fs ≤ 4294967295 →
      (send_update_counters cd fs).timestamp = cd.timestamp + fs) ∧
    (4294967295 < cd.timestamp + fs → (send_update_counters cd fs).timestamp = 0) ∧
    (cd.timestamp = 4294967295 → (send_update_counters cd fs).timestamp = 0) ∧
    (fs = 1 → (send_update_counters cd fs).timestamp = (cd.timestamp + 1) % 2 ^ 32) ∧
    0 ≤ (send_update_counters cd fs).timestamp ∧
    (send_update_counters cd fs).timestamp ≤ 4294967295 := by
  rw [send_update_timestamp]
  refine ⟨?_, ?_, ?_, ?_, ?_, ?_⟩ <;> [skip; skip; skip; (intro h; subst h); skip; skip] <;>
    split_ifs <;> omega

theorem timestamp_update_spec_witness :
    0 ≤ (4294967290 : Int) ∧
    (send_update_counters ⟨0, 4294967290, 0⟩ 7).timestamp = 0 := by
  refine ⟨by norm_num, ?_⟩
  exact (timestamp_update_spec ⟨0, 4294967290, 0⟩ 7 (by norm_num) (by norm_num)
    (by norm_num)).2.1 (by norm_num)

theorem send_iter_sequence (fs : Int) (n : Nat) (cd : ConnectionData)
    (h0 : 0 ≤ cd.sequence) (h1 : cd.sequence ≤ 65535) :
    (send_iter fs n cd).sequence = (cd.sequence + n) % 65536 := by
  induction n generalizing cd with
  | zero =>
    simp only [send_iter, Function.iterate_zero_apply, Nat.cast_zero, add_zero]
    omega
  | succ n ih =>
    have hrec : send_iter fs (n + 1) cd = send_iter fs n (send_update_counters cd fs) := by
      simp [send_iter, Function.iterate_succ_apply]
    have hstep := send_update_sequence cd fs
    have hb0 : 0 ≤ (send_update_counters cd fs).sequence := by rw [hstep]; split_ifs <;> omega
    have hb1 : (send_update_counters cd fs).sequence ≤ 65535 := by
      rw [hstep]; split_ifs <;> omega
    rw [hrec, ih (send_update_counters cd fs) hb0 hb1, hstep]
    split_ifs <;> push_cast <;> omega

/-- C6: starting from any in-range sequence value, the counter stays
non-negative, wraps 65535 to 0, returns to its starting value after exactly
65536 sends, and at no earlier positive number of sends. -/
theorem sequence_counter_period (cd : ConnectionData) (fs : Int)
    (h0 : 0 ≤ cd.sequence) (h1 : cd.sequence ≤ 65535) :
    (∀ n : Nat, 0 ≤ (send_iter fs n cd).sequence) ∧
    (cd.sequence = 65535 → (send_update_counters cd fs).sequence = 0) ∧
    (send_iter fs 65536 cd).sequence = cd.sequence ∧
    (∀ k : Nat, 1 ≤ k → k < 65536 → (send_iter fs k cd).sequence ≠ cd.sequence) := by
  refine ⟨?_, ?_, ?_, ?_⟩
  · intro n
    rw [send_iter_sequence fs n cd h0 h1]
    omega
  · intro h
    rw [send_update_sequence]
    split_ifs <;> omega
  · rw [send_iter_sequence fs 65536 cd h0 h1]
    push_cast
    omega
  · intro k hk1 hk2 hEq
    rw [send_iter_sequence fs k cd h0 h1] at hEq
    omega

theorem sequence_counter_period_witness :
    0 ≤ ((⟨65535, 0, 0⟩ : ConnectionData)).sequence ∧
    (send_update_counters ⟨65535, 0, 0⟩ 960).sequence = 0 := by
  refine ⟨by norm_num, ?_⟩
  exact (sequence_counter_period ⟨65535, 0, 0⟩ 960 (by norm_num) (by norm_num)).2.1 rfl

/-- C5: the LITE nonce counter is advanced by exactly one modulo 2 to the power
32 (so 4294967295 wraps to 0 and any smaller value goes to its successor), the
4 bytes appended after the ciphertext are the big-endian encoding of the
post-increment counter, they are exactly the first 4 bytes of the 24-byte
nonce buffer handed to the encryption primitive, and that buffer is 24 bytes. -/
theorem lite_send_spec (old : Int) (h0 : 0 ≤ old) (h1 : old ≤ 4294967295) :
    (lite_send old).nonce = (old + 1) % 2 ^ 32 ∧
    (old = 4294967295 → (lite_send old).nonce = 0) ∧
    (old < 4294967295 → (lite_send old).nonce = old + 1) ∧
    (lite_send old).suffix = writeUInt32BE ((lite_send old).nonce) ∧
    (lite_send old).nonceBuffer = (lite_send old).suffix ++ List.replicate 20 0 ∧
    (lite_send old).nonceBuffer.length = 24 := by
  refine ⟨?_, ?_, ?_, ?_, ?_, ?_⟩
  · show (if old + 1 > 4294967295 then 0 else old + 1) = (old + 1) % 2 ^ 32
    split_ifs <;> omega
  · intro h
    subst h
    rfl
  · intro h
    show (if old + 1 > 4294967295 then 0 else old + 1) = old + 1
    split_ifs <;> omega
  · rfl
  · rfl
  · rfl

theorem lite_send_spec_witness :
    0 ≤ (4294967295 : Int) ∧
    (lite_send 4294967295).nonce = 0 := by
  refine ⟨by norm_num, ?_⟩
  exact (lite_send_spec 4294967295 (by norm_num) (by norm_num)).2.1 rfl

/-! ## Retry policy theorems -/

/-- C3: the error handler is fatal exactly when retryable is the explicit value
false or less than ERROR_INTERVAL = 300000 ms have elapsed since the stored
error timestamp; a fatal error destroys the decode engine and emits exactly one
error event while leaving the timestamp alone; a transient error records the
current time and touches nothing else. -/
theorem error_retry_policy (now : Int) (retryable : Option Bool) (st : PlaybackState) :
    ERROR_INTERVAL = 300000 ∧
    ((error_fn now retryable st).1 = true ↔
      (retryable = some false ∨ now - st.last_error < ERROR_INTERVAL)) ∧
    ((error_fn now retryable st).1 = true →
      (error_fn now retryable st).2.player = false ∧
      (error_fn now retryable st).2.fatal_events = st.fatal_events + 1 ∧
      (error_fn now retryable st).2.last_error = st.last_error) ∧
    ((error_fn now retryable st).1 = false →
      (error_fn now retryable st).2.last_error = now ∧
      (error_fn now retryable st).2.player = st.player ∧
      (error_fn now retryable st).2.fatal_events = st.fatal_events) := by
  refine ⟨by norm_num [ERROR_INTERVAL], ?_, ?_, ?_⟩ <;>
    simp only [error_fn] <;> split_ifs with h <;> simp_all

theorem error_retry_policy_witness :
    (error_fn 600000 (some false) ⟨0, true, true, true, 0, false⟩).1 = true ∧
    (error_fn 600000 none ⟨0, true, true, true, 0, false⟩).1 = false := by
  constructor
  · exact (error_retry_policy 600000 (some false) ⟨0, true, true, true, 0, false⟩).2.1.mpr
      (Or.inl rfl)
  · have h := (error_retry_policy 600000 none ⟨0, true, true, true, 0, false⟩).2.1
    by_contra hc
    rcases h.mp (by revert hc; cases hx : (error_fn 600000 none
      ⟨0, true, true, true, 0, false⟩).1 <;> simp) with h1 | h2
    · exact Option.noConfusion h1
    · norm_num [ERROR_INTERVAL] at h2

/-! ## Subscription theorems -/

/-- C4: with external encryption enabled and a non-empty subscription list,
subscribe throws the UnsupportedError message and leaves the player state
exactly as it was: same subscription list, no listener attached. -/
theorem subscribe_second_unsupported (st : SubscribeState) (session : Nat)
    (he : st.external_encrypt = true) (hs : st.subscriptions ≠ []) :
    subscribe st session = (st, some unsupported_subscribe_message) ∧
    (subscribe st session).1.subscriptions = st.subscriptions ∧
    (subscribe st session).1.statechange_listeners = st.statechange_listeners := by
  have hlen : st.subscriptions.length ≠ 0 := by
    simpa [List.length_eq_zero] using hs
  simp [subscribe, he, hlen]

theorem subscribe_second_unsupported_witness :
    subscribe ⟨true, [1], [1]⟩ 2 = (⟨true, [1], [1]⟩, some unsupported_subscribe_message) := by
  exact (subscribe_second_unsupported ⟨true, [1], [1]⟩ 2 rfl (by simp)).1

/-! ## Stream selection theorems -/

theorem insertDesc_head (x : TrackStream) (l : List TrackStream) :
    (insertDesc x l).head? = step_best l.head? x := by
  cases l with
  | nil => rfl
  | cons y ys =>
    by_cases h : jsbitrate x ≤ jsbitrate y
    · simp [insertDesc, step_best, h, not_lt.mpr h]
    · simp [insertDesc, step_best, h, lt_of_not_ge h]

theorem sortDesc_foldl_head (l : List TrackStream) : ∀ (acc : List TrackStream),
    (List.foldl (fun a x => insertDesc x a) acc l).head? =
      List.foldl step_best acc.head? l := by
  induction l with
  | nil => intro acc; rfl
  | cons x xs ih =>
    intro acc
    simp only [List.foldl_cons]
    rw [ih (insertDesc x acc), insertDesc_head]

/-- The head of the stable descending sort is exactly the first
maximum-bitrate element. -/
theorem sortDesc_head (l : List TrackStream) : (sortDesc l).head? = firstMax l :=
  sortDesc_foldl_head l []

theorem foldl_step_best_some (l : List TrackStream) : ∀ (y : TrackStream),
    ∃ r, List.foldl step_best (some y) l = some r ∧ (r = y ∨ r ∈ l) := by
  induction l with
  | nil => intro y; exact ⟨y, rfl, Or.inl rfl⟩
  | cons x xs ih =>
    intro y
    by_cases hc : jsbitrate y < jsbitrate x
    · obtain ⟨r, hr, hm⟩ := ih x
      refine ⟨r, ?_, ?_⟩
      · simpa [step_best, hc] using hr
      · rcases hm with rfl | hm
        · exact Or.inr (List.mem_cons_self _ _)
        · exact Or.inr (List.mem_cons_of_mem _ hm)
    · obtain ⟨r, hr, hm⟩ := ih y
      refine ⟨r, ?_, ?_⟩
      · simpa [step_best, hc] using hr
      · rcases hm with rfl | hm
        · exact Or.inl rfl
        · exact Or.inr (List.mem_cons_of_mem _ hm)

/-- A non-empty list has a first maximum, and it is one of its elements. -/
theorem firstMax_some_mem (l : List TrackStream) (hne : l ≠ []) :
    ∃ r, firstMax l = some r ∧ r ∈ l := by
  cases l with
  | nil => exact absurd rfl hne
  | cons x xs =>
    obtain ⟨r, hr, hm⟩ := foldl_step_best_some xs x
    refine ⟨r, ?_, ?_⟩
    · simpa [firstMax, step_best] using hr
    · rcases hm with rfl | hm
      · exact List.mem_cons_self _ _
      · exact List.mem_cons_of_mem _ hm

/-- Every element of the opus bucket of classify is opus-coded and not
video-flagged. -/
theorem classify_opus_spec (ss : List TrackStream) :
    ∀ s ∈ (classify ss).1, s.codecs = some "opus" ∧ s.video = false := by
  induction ss with
  | nil => intro s h; simp [classify] at h
  | cons x xs ih =>
    intro s hs
    by_cases hv : x.video = true
    · simp only [classify, hv, if_true] at hs
      exact ih s hs
    · by_cases hc : x.codecs = some "opus"
      · simp only [classify, hv, if_false, hc, if_true] at hs
        rcases List.mem_cons.mp hs with rfl | hm
        · exact ⟨hc, by simpa using hv⟩
        · exact ih s hm
      · simp only [classify, hv, if_false, hc] at hs
        exact ih s hs

/-- C2 counterexample: fed only the video-flagged, non-audio bitrate-720
stream, the stream selector get_best_stream returns none, not the video entry:
the audio-capable filter removes the stream before the video-only fallback
partition can apply. -/
theorem video_fallback_counterexample :
    get_best_stream [videoOnly720] none = none := rfl

/-- C2 (amended): the video-only partition is a last-priority fallback inside
get_best_stream_one, which does return the sole video-flagged entry; the
top-level selector get_best_stream returns the video entry only when it is also
flagged audio-capable, and returns none when no audio-capable stream exists. -/
theorem video_fallback_spec :
    get_best_stream_one [videoOnly720] = some videoOnly720 ∧
    get_best_stream [videoAudio720] none = some videoAudio720 := by
  exact ⟨rfl, rfl⟩

/-- C7: the selector of the spec's example returns the opus entry over the
higher-bitrate aac entry; in general get_best_stream_one picks the first
maximum-bitrate element (undefined bitrate as 0, ties to the earlier element)
of the winning partition; and whenever a non-video opus-coded stream exists,
the returned stream is opus-coded, regardless of any bitrates. -/
theorem get_best_stream_one_spec (ss : List TrackStream) :
    get_best_stream_one [opus96, aac128] = some opus96 ∧
    get_best_stream_one ss = firstMax (winning_partition ss) ∧
    ((classify ss).1 ≠ [] → ∃ r, get_best_stream_one ss = some r ∧
      r.codecs = some "opus" ∧ r.video = false) := by
  refine ⟨rfl, ?_, ?_⟩
  · by_cases hss : ss.isEmpty
    · have h : ss = [] := List.isEmpty_iff.mp hss
      subst h
      rfl
    · simp only [get_best_stream_one, winning_partition, hss, if_false]
      by_cases hc :
          (if ¬(classify ss).1.isEmpty then (classify ss).1
           else if ¬(classify ss).2.1.isEmpty then (classify ss).2.1
           else (classify ss).2.2).isEmpty
      · rw [if_pos hc]
        have h := List.isEmpty_iff.mp hc
        rw [h]
        simp [firstMax]
      · rw [if_neg hc, sortDesc_head]
        simp
  · intro hopus
    have hne : ss ≠ [] := by
      intro h
      subst h
      exact hopus rfl
    have hssE : ss.isEmpty = false := by
      simpa [List.isEmpty_iff] using hne
    have hopusE : (classify ss).1.isEmpty = false := by
      simpa [List.isEmpty_iff] using hopus
    obtain ⟨r, hr, hm⟩ := firstMax_some_mem (classify ss).1 hopus
    refine ⟨r, ?_, classify_opus_spec ss r hm⟩
    simp only [get_best_stream_one, hssE, Bool.false_eq_true, if_false, hopusE,
      not_false_eq_true, if_true]
    rw [sortDesc_head]
    exact hr

theorem get_best_stream_one_spec_witness :
    (classify [opus96, aac128]).1 ≠ [] ∧
    (∃ r, get_best_stream_one [opus96, aac128] = some r ∧
      r.codecs = some "opus" ∧ r.video = false) := by
  exact ⟨by decide, (get_best_stream_one_spec [opus96, aac128]).2.2 (by decide)⟩

/-! ## The onerror handler -/

/-- C10: when the retry policy classifies the error as fatal, onerror stops
after the error call, leaving the cached stream collection and the decode
engine handle as the error call left them; when it classifies it as transient
and a track is set, the cached streams are discarded and the decode engine is
recreated, so the restart must re-resolve streams. -/
theorem onerror_stream_cache (now : Int) (retryable : Option Bool) (st : PlaybackState) :
    ((error_fn now retryable st).1 = true →
      onerror now retryable st = (error_fn now retryable st).2 ∧
      (onerror now retryable st).streams_cached = st.streams_cached ∧
      (onerror now retryable st).recreated = st.recreated) ∧
    ((error_fn now retryable st).1 = false → st.has_track = true →
      (onerror now retryable st).streams_cached = false ∧
      (onerror now retryable st).recreated = true ∧
      (onerror now retryable st).player = true) := by
  constructor
  · intro h
    have heq : onerror now retryable st = (error_fn now retryable st).2 := by
      simp [onerror, h]
    rw [heq]
    refine ⟨rfl, ?_, ?_⟩ <;>
      simp only [error_fn] <;> split_ifs <;> rfl
  · intro h ht
    have hht : (error_fn now retryable st).2.has_track = true := by
      simp only [error_fn]
      split_ifs <;> exact ht
    simp [onerror, h, hht]

theorem onerror_stream_cache_witness :
    ((error_fn 1000 (some false) ⟨0, true, true, true, 0, false⟩).1 = true) ∧
    (onerror 1000 (some false) ⟨0, true, true, true, 0, false⟩).streams_cached = true ∧
    (onerror 600000 none ⟨0, true, true, true, 0, false⟩).streams_cached = false := by
  refine ⟨rfl, ?_, ?_⟩
  · exact ((onerror_stream_cache 1000 (some false) ⟨0, true, true, true, 0, false⟩).1 rfl).2.1
  · exact ((onerror_stream_cache 600000 none ⟨0, true, true, true, 0, false⟩).2 rfl rfl).1

/-! ## Keepalive theorems -/

theorem silence_tick_cleared (s : SilenceState) (h : s.interval = false) :
    silence_tick s = s := by
  simp [silence_tick, h]

theorem silence_tick_run (k : Nat) : ∀ (j : Nat), 1 ≤ j → k ≤ j → ∀ (n : Nat) (t : Int),
    silence_tick^[k] ⟨false, (j : Int), true, n, t⟩ =
      ⟨false, (j : Int) - k, decide (k < j), n + k, t + 20 * k⟩ := by
  induction k with
  | zero =>
    intro j hj _ n t
    simp only [Function.iterate_zero_apply, Nat.cast_zero, sub_zero, add_zero, mul_zero]
    have hd : decide (0 < j) = true := decide_eq_true hj
    rw [hd]
  | succ k ih =>
    intro j hj hk n t
    rw [Function.iterate_succ_apply]
    rcases Nat.lt_or_ge 1 j with hj2 | hj1
    · have hstep : silence_tick ⟨false, (j : Int), true, n, t⟩ =
          ⟨false, ((j - 1 : Nat) : Int), true, n + 1, t + 20⟩ := by
        have hne : ¬((j : Int) - 1 = 0) := by omega
        have hcast : ((j - 1 : Nat) : Int) = (j : Int) - 1 := by omega
        simp only [silence_tick, if_neg, hne, if_false, hcast]
        rfl
      rw [hstep, ih (j - 1) (by omega) (by omega) (n + 1) (t + 20)]
      have e1 : ((j - 1 : Nat) : Int) - k = (j : Int) - (k + 1 : Nat) := by push_cast; omega
      have e2 : decide (k < j - 1) = decide ((k + 1 : Nat) < j) :=
        decide_eq_decide.mpr (by omega)
      have e3 : n + 1 + k = n + (k + 1) := by omega
      have e4 : t + 20 + 20 * k = t + 20 * (k + 1 : Nat) := by push_cast; ring
      rw [e1, e2, e3, e4]
    · have hj1' : j = 1 := by omega
      subst hj1'
      have hk0 : k = 0 := by omega
      subst hk0
      simp only [Function.iterate_zero_apply, Nat.cast_one, Nat.zero_add]
      simp [silence_tick]

/-- C8: from an idle player with the keepalive armed (stop_silence_frames has
run and the interval is started), each of the first 5 timer firings is 20 ms
after the previous one and sends exactly one silence frame; after the fifth the
interval has cleared itself, and every later firing changes nothing, so exactly
5 padding sends occur in total. -/
theorem keepalive_five_frames (s : SilenceState) (h : s.needed = false) :
    (∀ k : Nat, k ≤ 5 →
      (silence_tick^[k] (start_silence_frames (stop_silence_frames s))).sends = s.sends + k ∧
      (silence_tick^[k] (start_silence_frames (stop_silence_frames s))).time =
        s.time + 20 * k ∧
      (silence_tick^[k] (start_silence_frames (stop_silence_frames s))).interval =
        decide (k < 5)) ∧
    (∀ n : Nat, 5 ≤ n →
      silence_tick^[n] (start_silence_frames (stop_silence_frames s)) =
        silence_tick^[5] (start_silence_frames (stop_silence_frames s))) := by
  have harm : start_silence_frames (stop_silence_frames s) =
      ⟨false, (5 : Nat), true, s.sends, s.time⟩ := by
    obtain ⟨nd, lf, iv, sd, tm⟩ := s
    simp only [SilenceState.needed] at h
    subst h
    simp [stop_silence_frames, start_silence_frames]
  rw [harm]
  constructor
  · intro k hk
    rw [silence_tick_run k 5 (by norm_num) hk s.sends s.time]
    norm_num
  · intro n hn
    obtain ⟨m, rfl⟩ : ∃ m, n = m + 5 := ⟨n - 5, by omega⟩
    rw [Function.iterate_add_apply]
    have h5 := silence_tick_run 5 5 (by norm_num) (by norm_num) s.sends s.time
    rw [h5]
    exact Function.iterate_fixed (silence_tick_cleared _ rfl) m

theorem keepalive_five_frames_witness :
    (silence_tick^[5] (start_silence_frames
        (stop_silence_frames ⟨false, 0, false, 0, 0⟩))).sends = 0 + 5 ∧
    (silence_tick^[5] (start_silence_frames
        (stop_silence_frames ⟨false, 0, false, 0, 0⟩))).interval = decide (5 < 5) ∧
    silence_tick^[7] (start_silence_frames (stop_silence_frames ⟨false, 0, false, 0, 0⟩)) =
      silence_tick^[5] (start_silence_frames (stop_silence_frames ⟨false, 0, false, 0, 0⟩)) := by
  have h := keepalive_five_frames ⟨false, 0, false, 0, 0⟩ rfl
  exact ⟨(h.1 5 (by norm_num)).1, (h.1 5 (by norm_num)).2.2, h.2 7 (by norm_num)⟩

/-! ## Connection readiness theorems -/

theorem conn_step_benign (s : ConnState) (e : ConnEvent)
    (he : e = ConnEvent.statusChange VStatus.Signalling none ∨
          e = ConnEvent.statusChange VStatus.Connecting none) :
    (conn_step s e).promise = s.promise ∧ (conn_step s e).timeoutAt = s.timeoutAt := by
  rcases he with rfl | rfl <;>
    · simp only [conn_step, set_state]
      split_ifs <;> simp [handle_state_change]

theorem conn_run_benign (tr : List ConnEvent) : ∀ (s : ConnState),
    (∀ e ∈ tr, e = ConnEvent.statusChange VStatus.Signalling none ∨
               e = ConnEvent.statusChange VStatus.Connecting none) →
    (conn_run s tr).promise = s.promise ∧ (conn_run s tr).timeoutAt = s.timeoutAt := by
  induction tr with
  | nil => intro s _; exact ⟨rfl, rfl⟩
  | cons e es ih =>
    intro s htr
    have h1 := conn_step_benign s e (htr e (List.mem_cons_self _ _))
    have h2 := ih (conn_step s e) (fun e' he' => htr e' (List.mem_cons_of_mem _ he'))
    simp only [conn_run, List.foldl_cons] at h2 ⊢
    exact ⟨h2.1.trans h1.1, h2.2.trans h1.2⟩

/-- C9 counterexample: a session that is destroyed while the awaitReady future
is in flight never reaches Ready, yet its future is rejected immediately with
the destroy error, not after the 15000 ms timeout with the timed-out error. -/
theorem await_ready_destroy_counterexample :
    (conn_step (await_connection 0 ⟨VStatus.Signalling, none, none⟩)
        (ConnEvent.statusChange VStatus.Destroyed none)).promise =
      some (PromiseState.rejected "Connection destroyed") ∧
    "Connection destroyed" ≠ "Connection timed out" := by
  constructor
  · rfl
  · decide

/-- C9 (amended): for a session that is not Ready and has no future in flight,
await_connection creates one pending future with the timeout armed at exactly
now + 15000; as long as the session neither reaches Ready nor is disconnected
or destroyed, the future stays pending with that same deadline, and the timeout
firing rejects it with the timed-out error; and any await_connection call made
while a future is in flight returns with the state unchanged, sharing the
in-flight future instead of creating a new one. -/
theorem await_ready_timeout (s0 : ConnState) (t0 : Int) (tr : List ConnEvent)
    (hst : s0.status ≠ VStatus.Ready) (hp : s0.promise = none)
    (htr : ∀ e ∈ tr, e = ConnEvent.statusChange VStatus.Signalling none ∨
                     e = ConnEvent.statusChange VStatus.Connecting none) :
    (await_connection t0 s0).promise = some PromiseState.pending ∧
    (await_connection t0 s0).timeoutAt = some (t0 + 15000) ∧
    (conn_run (await_connection t0 s0) tr).promise = some PromiseState.pending ∧
    (conn_run (await_connection t0 s0) tr).timeoutAt = some (t0 + 15000) ∧
    (timeout_fire (conn_run (await_connection t0 s0) tr)).promise =
      some (PromiseState.rejected "Connection timed out") ∧
    (∀ (t : Int) (s : ConnState), s.promise.isSome → await_connection t s = s) := by
  have hA : await_connection t0 s0 =
      { s0 with promise := some PromiseState.pending, timeoutAt := some (t0 + 15000) } := by
    simp [await_connection, hst, hp]
  have hrun := conn_run_benign tr (await_connection t0 s0) htr
  have hrp : (conn_run (await_connection t0 s0) tr).promise = some PromiseState.pending := by
    rw [hrun.1, hA]
  have hrt : (conn_run (await_connection t0 s0) tr).timeoutAt = some (t0 + 15000) := by
    rw [hrun.2, hA]
  refine ⟨by rw [hA], by rw [hA], hrp, hrt, ?_, ?_⟩
  · simp [timeout_fire, promise_reject, hrp]
  · intro t s hs
    simp [await_connection, hs]

theorem await_ready_timeout_witness :
    (conn_run (await_connection 0 ⟨VStatus.Signalling, none, none⟩)
        [ConnEvent.statusChange VStatus.Connecting none]).promise =
      some PromiseState.pending ∧
    (conn_run (await_connection 0 ⟨VStatus.Signalling, none, none⟩)
        [ConnEvent.statusChange VStatus.Connecting none]).timeoutAt = some (0 + 15000) ∧
    (timeout_fire (conn_run (await_connection 0 ⟨VStatus.Signalling, none, none⟩)
        [ConnEvent.statusChange VStatus.Connecting none])).promise =
      some (PromiseState.rejected "Connection timed out") := by
  have h := await_ready_timeout ⟨VStatus.Signalling, none, none⟩ 0
    [ConnEvent.statusChange VStatus.Connecting none] (by decide) rfl (by decide)
  exact ⟨h.2.2.1, h.2.2.2.1, h.2.2.2.2.1⟩

end Yasha
